import Mathlib

/-!
# Verification of the Intrapreneurs Online room game-state engine

A shallow embedding, in Lean 4, of the room game-state engine of the
Intrapreneurs Online repository:

* `api/_lib/roomReducer.js` — seat ordering, round advancement,
  round-end discard-debt arbitration, final scoring (`reduceRoomState`
  and its helpers);
* `api/rooms/[id]/act.js` — the per-action appliers (`applyPickAsset`,
  `applyStartProject`, `applyAllocateToProject`, `applyPauseProject`,
  the `DISCARD_ASSET` branch of `applyRoomAction`) and the pure
  validation pipeline of the request `handler`;
* `api/_lib/publicRoomState.js` — the public projection;
* `src/gameCore/decks.ts` — the seeded PRNG and Fisher–Yates `shuffle`.

Conventions of the embedding:

* JavaScript numbers that hold integers are modelled as `Int`
  (or `Nat` for inherently non-negative machine words in the PRNG).
  `Number(x ?? 0)` idioms disappear because fields are typed.
* JavaScript objects used as string-keyed maps (`room.seats`,
  `room.mustDiscardBySeat`, `dealQueue`) are association lists
  `List (String × _)` with first-match lookup; object keys are unique,
  which the concrete states used below respect.
* Fallible code (`throw`) is `Except String _`.
* The card catalogs (`projects.json`, `assetsRound1.json`,
  `macroEvents.json`) are data files loaded at process start; they are
  parameters of the embedding (`Catalog`), since the engine only reads
  them through total lookup functions.
* Wall-clock time (the `at` field of log entries) and the external
  document store (gist fetch/patch, ETags) sit outside the pure
  fragment; the handler embedding covers everything from request
  validation to the document that would be submitted to the
  conditional write.
-/

namespace Intrapreneurs

/-- The three project stages (`'NONE' | 'MV' | 'TF'` in the code). -/
inductive Stage where
  | NONE
  | MV
  | TF
deriving DecidableEq, Repr

/-- The three numeric axes accumulated on a project
(`allocatedTotals` in the code: budget, headcount, tailwind). -/
structure Totals where
  budget : Int := 0
  headcount : Int := 0
  tailwind : Int := 0
deriving DecidableEq, Repr

/-- A project instance owned by a seat. Fields that a freshly started
project leaves `undefined` in the code (`restartBurdenTailwind`,
`abandonedPenaltyCount`) default to 0, which is observationally
equivalent because every read goes through `Number(x ?? 0)` or a
`> 0` test. -/
structure ProjectInstance where
  id : String
  allocatedTotals : Totals := {}
  allocatedCardIds : List String := []
  stage : Stage := .NONE
  paused : Bool := false
  restartBurdenTailwind : Int := 0
  abandonedPenaltyCount : Int := 0
deriving DecidableEq, Repr

instance : Inhabited ProjectInstance := ⟨{ id := "" }⟩

/-- Per-seat state. `token`/`tokenHash` are the credential fields read
by `isSeatTokenValid` in `act.js`. -/
structure SeatState where
  connected : Bool := false
  handSize : Int := 0
  mustDiscard : Bool := false
  discardTarget : Option Int := none
  projects : List ProjectInstance := []
  projectsStartedThisRound : Int := 0
  lastHandHash : Option String := none
  token : Option String := none
  tokenHash : Option String := none
deriving DecidableEq, Repr

/-- One draw/discard pile pair. -/
structure DeckState where
  drawPile : List String := []
  discardPile : List String := []
deriving DecidableEq, Repr

/-- The named decks the engine reads (`room.decks`). -/
structure Decks where
  assetsRound1 : DeckState := {}
  projects : DeckState := {}
  macroEvents : DeckState := {}
deriving DecidableEq, Repr

/-- Face-up market state. -/
structure Market where
  availableAssets : List String := []
  availableProjects : List String := []
deriving DecidableEq, Repr

/-- A macro-event catalog entry (`macroEvents.json`): id, name and a
string-keyed record of numeric rule modifiers. -/
structure MacroEvent where
  id : String
  name : String
  ruleModifiers : List (String × Int) := []
deriving DecidableEq, Repr

/-- An installed round modifier, as built by `reduceRoomState`:
`{ source: event.id, ...event.ruleModifiers, ...hardcoded overrides }`.
The spread is modelled by an entry list in spread order; a later entry
overrides an earlier one with the same key. -/
structure RoundModifier where
  source : String
  entries : List (String × Int) := []
deriving DecidableEq, Repr

/-- Per-seat scoring record produced by `computeSeatScoring`. -/
structure SeatScoring where
  growth : Int
  fuel : Int
  mvCompletedCount : Int
  tfCompletedCount : Int
  pausedOrAbandonedCount : Int
  baseScore : Int
  finalScore : Int
deriving DecidableEq, Repr

/-- Result of `computeFinalScoring`. -/
structure FinalScoring where
  bySeat : List (String × SeatScoring)
  winners : List String
  isTie : Bool
deriving DecidableEq, Repr

/-- One log entry; the wall-clock `at` field is outside the pure model. -/
structure LogEntry where
  seat : String
  type : String
deriving DecidableEq, Repr

/-- The room document (root aggregate persisted in `room.json`). -/
structure Room where
  version : Int := 0
  currentSeat : String := ""
  turnNonce : String := ""
  currentRound : Int := 1
  totalRounds : Int := 3
  turnCount : Int := 0
  pendingRoundAdvance : Bool := false
  mustDiscardBySeat : List (String × Int) := []
  seats : List (String × SeatState) := []
  market : Market := {}
  decks : Decks := {}
  dealQueue : List (String × List String) := []
  macroEvent : Option MacroEvent := none
  roundModifiers : List RoundModifier := []
  gameOver : Bool := false
  finalScoring : Option FinalScoring := none
  log : List LogEntry := []
deriving DecidableEq, Repr

/-- The static card catalogs, loaded once from JSON data files in the
code and therefore parameters of the embedding. `assetEligible` is
`isAssetEligible ∘ assetLookup`, i.e. "the catalog entry (if any) has
no `pickCondition`"; an id absent from the catalog is eligible, exactly
as `!assetLookup[id]?.pickCondition` is. -/
structure Catalog where
  hashToken : String → String
  assetEligible : String → Bool
  assetOutcomes : String → Option Totals
  projectReqs : String → Option (Int × Int)
  projectRewards : String → Option (Int × Int)
  projectRestartBurden : String → Int
  macroLookup : String → Option MacroEvent

/-- First-match association-list lookup (JS object property read). -/
def alistLookup (l : List (String × α)) (k : String) : Option α :=
  (l.find? (fun p => p.1 == k)).map Prod.snd

/-- `Number(map?.[seat] ?? 0)` on a seat→count object. -/
def debtOf (l : List (String × Int)) (k : String) : Int :=
  (alistLookup l k).getD 0

/-- `room?.seats?.[seat] ?? {}`. -/
def getSeatD (room : Room) (seat : String) : SeatState :=
  (alistLookup room.seats seat).getD {}

/-- `{ ...room.seats, [seat]: st }`: replace the binding if the key is
present (keeping its position), else append it. -/
def setSeat (seats : List (String × SeatState)) (seat : String)
    (st : SeatState) : List (String × SeatState) :=
  if seats.any (fun p => p.1 == seat) then
    seats.map (fun p => if p.1 == seat then (seat, st) else p)
  else
    seats ++ [(seat, st)]

/-! ## `api/_lib/roomReducer.js` -/

/-- `SEAT_ORDER.indexOf(s)`, as an `Option`. -/
def seatOrderIdx (s : String) : Option Nat :=
  (["A", "B", "C", "D"].findIdx? (fun x => x == s))

/-- The comparator `seatSort` of `roomReducer.js`, as a boolean
"less-or-equal". Seats outside `SEAT_ORDER` sort after the canonical
ones and among themselves by string comparison (`localeCompare`,
modelled as lexicographic order, which agrees on ASCII seat names). -/
def seatLe (a b : String) : Bool :=
  match seatOrderIdx a, seatOrderIdx b with
  | none, none => decide (a ≤ b)
  | none, some _ => false
  | some _, none => true
  | some i, some j => decide (i ≤ j)

/-- Stable insertion into a `seatLe`-sorted list. -/
def insertSeat (x : String) : List String → List String
  | [] => [x]
  | y :: ys => if seatLe x y then x :: y :: ys else y :: insertSeat x ys

/-- Stable sort by `seatSort` (JS `Array.prototype.sort` is stable). -/
def sortSeats (l : List String) : List String :=
  l.foldr insertSeat []

/-- `getJoinedSeatOrder` of `roomReducer.js`. -/
def getJoinedSeatOrder (seats : List (String × SeatState)) : List String :=
  let connected := sortSeats ((seats.filter (fun p => p.2.connected)).map Prod.fst)
  if connected.length > 0 then connected
  else sortSeats (seats.map Prod.fst)

/-- `getNextSeat` of `roomReducer.js` (throws on an empty order). -/
def getNextSeat (joined : List String) (current : String) :
    Except String String :=
  match joined with
  | [] => .error "No joined seats available."
  | x :: _ =>
    match joined.findIdx? (fun s => s == current) with
    | none => .ok x
    | some i => .ok (joined.getD ((i + 1) % joined.length) current)

/-- `FULL_TURN_ROUND_ADVANCE` constant. -/
def FULL_TURN_ROUND_ADVANCE : Int := 2

/-- `shouldAdvanceRound` of `roomReducer.js`. The typed model always
has a `decks.projects.drawPile` array, so the `Array.isArray` guard is
always satisfied, exactly as for every persisted room document. -/
def shouldAdvanceRound (room : Room) (joined : List String)
    (actionType : String) : Bool :=
  actionType == "ADVANCE_ROUND" ||
  room.decks.projects.drawPile.isEmpty ||
  decide (room.turnCount + 1 ≥ (joined.length : Int) * FULL_TURN_ROUND_ADVANCE)

/-- `drawMacroEvent` of `roomReducer.js`: pop the macro-events draw
pile, move the id to the discard pile, and look the event up in the
catalog (falling back to a bare `{id, name: id, ruleModifiers: {}}`). -/
def drawMacroEvent (cat : Catalog) (decks : Decks) :
    Option MacroEvent × Decks :=
  match decks.macroEvents.drawPile with
  | [] => (none, decks)
  | eventId :: remaining =>
    let ev := (cat.macroLookup eventId).getD
      { id := eventId, name := eventId, ruleModifiers := [] }
    (some ev,
      { decks with macroEvents :=
        { decks.macroEvents with
          drawPile := remaining,
          discardPile := decks.macroEvents.discardPile ++ [eventId] } })

/-- `Number(room?.seats?.[seat]?.projectsStartedThisRound ?? 0)`. -/
def projectsStartedOf (room : Room) (seat : String) : Int :=
  (getSeatD room seat).projectsStartedThisRound

/-- `computeMustDiscardBySeat` of `roomReducer.js`. -/
def computeMustDiscardBySeat (room : Room) (joined : List String) :
    List (String × Int) :=
  let maxStarted : Int :=
    (joined.map (fun s => projectsStartedOf room s)).foldr max 0
  let leaders := joined.filter (fun s => projectsStartedOf room s == maxStarted)
  if leaders.length ≠ 1 ∨ maxStarted ≤ 0 then
    joined.map (fun s => (s, (0 : Int)))
  else
    let leader := leaders.headD ""
    joined.map (fun s => (s, if s == leader then (0 : Int) else 1))

/-- `hasOutstandingRoundDiscards` of `roomReducer.js`. -/
def hasOutstandingRoundDiscards (m : List (String × Int))
    (joined : List String) : Bool :=
  joined.any (fun s => decide (debtOf m s > 0))

/-- Accumulator of the `computeSeatScoring` loop. -/
structure ScoreAcc where
  growth : Int := 0
  fuel : Int := 0
  mvCompletedCount : Int := 0
  tfCompletedCount : Int := 0
  pausedOrAbandonedCount : Int := 0
deriving DecidableEq, Repr

/-- One iteration of the `computeSeatScoring` loop over a project. -/
def scoreStep (cat : Catalog) (acc : ScoreAcc) (p : ProjectInstance) :
    ScoreAcc :=
  let rewards := (cat.projectRewards p.id).getD (0, 0)
  let acc :=
    if p.stage = .MV ∨ p.stage = .TF then
      { acc with
        mvCompletedCount := acc.mvCompletedCount + 1,
        growth := acc.growth + rewards.1,
        fuel := acc.fuel + rewards.2 }
    else acc
  let acc :=
    if p.stage = .TF then
      { acc with
        tfCompletedCount := acc.tfCompletedCount + 1,
        growth := acc.growth + rewards.1,
        fuel := acc.fuel + rewards.2 }
    else acc
  if p.paused = true ∨ p.abandonedPenaltyCount > 0 then
    { acc with pausedOrAbandonedCount := acc.pausedOrAbandonedCount + 1 }
  else acc

/-- `computeSeatScoring` of `roomReducer.js`. `Math.floor((upper -
lower) / 3)` is `Int.fdiv`, which is exactly the floor of the real
quotient for every sign. -/
def computeSeatScoring (cat : Catalog) (seatState : SeatState) :
    SeatScoring :=
  let acc := seatState.projects.foldl (scoreStep cat) {}
  let lower := min acc.growth acc.fuel
  let upper := max acc.growth acc.fuel
  let baseScore := lower + Int.fdiv (upper - lower) 3
  { growth := acc.growth
    fuel := acc.fuel
    mvCompletedCount := acc.mvCompletedCount
    tfCompletedCount := acc.tfCompletedCount
    pausedOrAbandonedCount := acc.pausedOrAbandonedCount
    baseScore := baseScore
    finalScore := baseScore - acc.pausedOrAbandonedCount }

/-- `computeFinalScoring` of `roomReducer.js`. `bestScore` is
`Math.max(...scores, 0)` — note the extra `0` argument. -/
def computeFinalScoring (cat : Catalog) (room : Room)
    (joined : List String) : FinalScoring :=
  let scoreOf := fun s => (computeSeatScoring cat (getSeatD room s)).finalScore
  let bySeat := joined.map (fun s => (s, computeSeatScoring cat (getSeatD room s)))
  let bestScore := (joined.map scoreOf).foldr max 0
  let winners := joined.filter (fun s => scoreOf s == bestScore)
  { bySeat := bySeat
    winners := winners
    isTie := winners.length > 1 }

/-- The modifier record installed at a round boundary:
`{ source: id, ...ruleModifiers, ...(id === 'macro-m5' ? {handLimit: 6}
: {}), ...(id === 'macro-m6' ? {tailwindPickBonus: 1} : {}) }`. -/
def installModifier (ev : MacroEvent) : RoundModifier :=
  { source := ev.id
    entries := ev.ruleModifiers
      ++ (if ev.id == "macro-m5" then [("handLimit", (6 : Int))] else [])
      ++ (if ev.id == "macro-m6" then [("tailwindPickBonus", (1 : Int))] else []) }

/-- `reduceRoomState` of `roomReducer.js` (the `END_TURN` /
`ADVANCE_ROUND` branch; every other action type throws). -/
def reduceRoomState (cat : Catalog) (room : Room) (actionType : String) :
    Except String Room :=
  if actionType == "END_TURN" || actionType == "ADVANCE_ROUND" then
    let joined := getJoinedSeatOrder room.seats
    let pending := room.pendingRoundAdvance
    let curMap := room.mustDiscardBySeat
    if actionType == "ADVANCE_ROUND" && pending &&
        hasOutstandingRoundDiscards curMap joined then
      .error "Round-end discards must be completed before starting the next round."
    else
      let advanceRound := pending || shouldAdvanceRound room joined actionType
      if !advanceRound then
        match getNextSeat joined room.currentSeat with
        | .error e => .error e
        | .ok next =>
          .ok { room with
            currentSeat := next
            turnCount := room.turnCount + 1
            version := room.version + 1 }
      else
        let m :=
          if pending && !hasOutstandingRoundDiscards curMap joined then curMap
          else computeMustDiscardBySeat room joined
        if hasOutstandingRoundDiscards m joined then
          .ok { room with
            pendingRoundAdvance := true
            mustDiscardBySeat := m
            version := room.version + 1 }
        else if room.currentRound ≥ room.totalRounds then
          .ok { room with
            pendingRoundAdvance := false
            mustDiscardBySeat := joined.map (fun s => (s, (0 : Int)))
            gameOver := true
            finalScoring := some (computeFinalScoring cat room joined)
            version := room.version + 1 }
        else
          let nextRound := min (room.currentRound + 1) room.totalRounds
          let mt :=
            if nextRound == 2 || nextRound == 3 then drawMacroEvent cat room.decks
            else (room.macroEvent, room.decks)
          let resetSeats := room.seats.map
            (fun p => (p.1, { p.2 with projectsStartedThisRound := (0 : Int) }))
          .ok { room with
            seats := resetSeats
            currentSeat := joined.headD ""
            currentRound := nextRound
            pendingRoundAdvance := false
            mustDiscardBySeat := joined.map (fun s => (s, (0 : Int)))
            turnCount := 0
            macroEvent := mt.1
            roundModifiers :=
              (match mt.1 with
               | some ev => [installModifier ev]
               | none => room.roundModifiers)
            decks := mt.2
            gameOver := false
            finalScoring := none
            version := room.version + 1 }
  else .error "Unsupported action type."

/-! ## `api/rooms/[id]/act.js` — per-action appliers -/

/-- The private-delta record disclosed to the acting seat only. -/
structure PrivateDelta where
  seat : String
  addedCardIds : List String := []
  removedCardIds : List String := []
deriving DecidableEq, Repr

/-- `drawTop` of `act.js`: pop the draw pile, append the drawn id to
the discard pile; `(null, deck)` on an empty pile. -/
def drawTop (d : DeckState) : Option String × DeckState :=
  match d.drawPile with
  | [] => (none, d)
  | c :: rest =>
    (some c, { d with drawPile := rest, discardPile := d.discardPile ++ [c] })

/-- The `while (nextAvailableAssets.length < limit)` refill loop of
`applyPickAsset` / `applyStartProject`, recursing on the draw pile:
draw with `drawTop` until the market holds `limit` cards or the pile
is exhausted (each drawn id also moves to the discard pile). -/
def refillFromPile (limit : Nat) :
    List String → List String → List String → List String × DeckState
  | [], avail, discard =>
    (avail, { drawPile := [], discardPile := discard })
  | c :: rest, avail, discard =>
    if avail.length < limit then
      refillFromPile limit rest (avail ++ [c]) (discard ++ [c])
    else (avail, { drawPile := c :: rest, discardPile := discard })

/-- The refill loop applied to a deck. -/
def refillMarket (limit : Nat) (avail : List String) (d : DeckState) :
    List String × DeckState :=
  refillFromPile limit d.drawPile avail d.discardPile

/-- `applyPickAsset` of `act.js`. Note the hand-limit test is the
hardcoded `nextHandSize > 7` with `discardTarget: mustDiscard ? 7 :
null`; `room.roundModifiers` is never consulted. -/
def applyPickAsset (cat : Catalog) (room : Room) (seat : String)
    (cardId : Option String) : Except String (Room × PrivateDelta) :=
  let available := room.market.availableAssets
  let eligibleIds := available.filter cat.assetEligible
  let selected : Option String :=
    match cardId with
    | some cid => if cid ∈ eligibleIds then some cid else eligibleIds.head?
    | none => eligibleIds.head?
  let pickState :=
    match selected with
    | some c => (some c, available.filter (fun x => x ≠ c), room.decks.assetsRound1)
    | none =>
      let dr := drawTop room.decks.assetsRound1
      (dr.1, available, dr.2)
  let refill := refillMarket 3 pickState.2.1 pickState.2.2
  match pickState.1 with
  | none => .error "No asset cards available to pick or draw."
  | some pickedId =>
    let st := getSeatD room seat
    let nextHandSize := st.handSize + 1
    let mustDiscard := decide (nextHandSize > 7)
    .ok
      ({ room with
          seats := setSeat room.seats seat
            { st with
              handSize := nextHandSize
              mustDiscard := mustDiscard
              discardTarget := if mustDiscard then some 7 else none }
          market := { room.market with availableAssets := refill.1 }
          decks := { room.decks with assetsRound1 := refill.2 } },
        { seat := seat, addedCardIds := [pickedId], removedCardIds := [] })

/-- `applyStartProject` of `act.js` (the `part_013` handler variant).
The refill loop moves each drawn project id to the projects deck's
discard pile as well as into the market, exactly as the code does. -/
def applyStartProject (room : Room) (seat : String)
    (projectId : Option String) : Except String (Room × Option PrivateDelta) :=
  let available := room.market.availableProjects
  if available.length = 0 then .error "No projects available to start."
  else
    let selected : Option String :=
      match projectId with
      | some pid => if pid ∈ available then some pid else none
      | none => none
    match selected with
    | none => .error "Selected project is not available in market."
    | some pid =>
      let refill := refillMarket 5 (available.filter (fun x => x ≠ pid))
        room.decks.projects
      let st := getSeatD room seat
      let inst : ProjectInstance :=
        { id := pid, allocatedTotals := {}, allocatedCardIds := []
          stage := .NONE, paused := false }
      .ok
        ({ room with
            seats := setSeat room.seats seat
              { st with
                projects := st.projects ++ [inst]
                projectsStartedThisRound := st.projectsStartedThisRound + 1 }
            market := { room.market with availableProjects := refill.1 }
            decks := { room.decks with projects := refill.2 } },
          none)

/-- `computeProjectStage` of `act.js`. A project id absent from the
catalog gets `mvReq = tfReq = Infinity`, so both threshold tests fail
and the stage is `NONE`. -/
def computeProjectStage (cat : Catalog) (projectId : String) (t : Totals) :
    Stage :=
  match cat.projectReqs projectId with
  | none => .NONE
  | some reqs =>
    if t.tailwind ≥ reqs.1 + reqs.2 then .TF
    else if t.tailwind ≥ reqs.1 then .MV
    else .NONE

/-- A project is "active" for allocation: present, not paused and not
already complete (`stage !== 'TF'`). -/
def isActiveProject (p : ProjectInstance) : Bool :=
  !p.paused && !(p.stage == .TF)

/-- The `/^[a-f0-9]{64}$/i` hand-hash shape test. -/
def isHexChar (c : Char) : Bool :=
  (('0' ≤ c) && (c ≤ '9')) || (('a' ≤ c) && (c ≤ 'f')) ||
    (('A' ≤ c) && (c ≤ 'F'))

/-- `isValidHandHash`: exactly 64 hex characters. -/
def isValidHandHash (s : String) : Bool :=
  s.length == 64 && s.toList.all isHexChar

/-- The totals-accumulation loop of `applyAllocateToProject`; throws on
a card id with no catalog `outcomes`. -/
def accumulateOutcomes (cat : Catalog) : Totals → List String → Except String Totals
  | t, [] => .ok t
  | t, c :: rest =>
    match cat.assetOutcomes c with
    | none => .error "Unknown asset card id."
    | some o =>
      accumulateOutcomes cat
        { budget := t.budget + o.budget
          headcount := t.headcount + o.headcount
          tailwind := t.tailwind + o.tailwind } rest

/-- `applyAllocateToProject` of `act.js`. The target is resolved by
reference in the code; here by the index of the first matching element,
which identifies the same list entry. Note which validations exist:
nothing checks the submitted card ids against the market, the deal
queue or other projects' allocations. -/
def applyAllocateToProject (cat : Catalog) (room : Room) (seat : String)
    (projectId : Option String) (cardIds : List String)
    (handHash : Option String) : Except String (Room × Option PrivateDelta) :=
  let st := getSeatD room seat
  let projectsL := st.projects
  if !projectsL.any isActiveProject then
    .error "Seat does not have an active project to allocate to."
  else if cardIds.length = 0 then
    .error "Must provide at least one card id to allocate."
  else if !decide cardIds.Nodup then
    .error "Duplicate card ids are not allowed in allocation."
  else if (cardIds.length : Int) > st.handSize then
    .error "Cannot allocate more cards than current hand size."
  else
    match handHash with
    | none => .error "Missing or invalid handHash proof."
    | some h =>
      if !isValidHandHash h then .error "Missing or invalid handHash proof."
      else
        let targetIdx :=
          match projectId with
          | some pid => projectsL.findIdx? (fun p => isActiveProject p && p.id == pid)
          | none => projectsL.findIdx? isActiveProject
        match targetIdx with
        | none => .error "Selected project is not active for this seat."
        | some i =>
          let target := projectsL.getD i default
          match accumulateOutcomes cat target.allocatedTotals cardIds with
          | .error e => .error e
          | .ok nextTotals =>
            let updated :=
              { target with
                allocatedTotals := nextTotals
                allocatedCardIds := target.allocatedCardIds ++ cardIds
                stage := computeProjectStage cat target.id nextTotals }
            .ok
              ({ room with
                  seats := setSeat room.seats seat
                    { st with
                      handSize := st.handSize - (cardIds.length : Int)
                      lastHandHash := some h
                      projects := projectsL.set i updated } },
                some { seat := seat, addedCardIds := [], removedCardIds := cardIds })

/-- `applyPauseProject` of `act.js`. -/
def applyPauseProject (cat : Catalog) (room : Room) (seat : String)
    (projectId : Option String) : Except String (Room × Option PrivateDelta) :=
  let st := getSeatD room seat
  let projectsL := st.projects
  let targetIdx :=
    match projectId with
    | some pid => projectsL.findIdx? (fun p => p.id == pid)
    | none => projectsL.findIdx? (fun p => !p.paused)
  match targetIdx with
  | none => .error "No project available to pause."
  | some i =>
    let target := projectsL.getD i default
    if target.paused then .error "Project is already paused."
    else
      let returned := target.allocatedCardIds
      let updated :=
        { target with
          paused := true
          restartBurdenTailwind := cat.projectRestartBurden target.id
          abandonedPenaltyCount := 1
          allocatedTotals := {}
          allocatedCardIds := []
          stage := .NONE }
      .ok
        ({ room with
            seats := setSeat room.seats seat
              { st with
                handSize := st.handSize + (returned.length : Int)
                projects := projectsL.set i updated } },
          some { seat := seat, addedCardIds := returned, removedCardIds := [] })

/-- The `DISCARD_ASSET` branch of `applyRoomAction` in `act.js`.
`discardTarget` falls back to 7 when the stored value is not an
integer (`null` in practice). Note that the room-level
`mustDiscardBySeat` map is not read or written here. -/
def applyDiscardAsset (room : Room) (seat : String) (cardId : Option String) :
    Except String (Room × Option PrivateDelta) :=
  let st := getSeatD room seat
  if st.handSize ≤ 0 then .error "No cards available to discard."
  else
    match cardId with
    | none => .error "Missing discard card id."
    | some cid =>
      if cid.length = 0 then .error "Missing discard card id."
      else
        let nextHandSize := st.handSize - 1
        let target := st.discardTarget.getD 7
        let mustDiscard := decide (nextHandSize > target)
        .ok
          ({ room with
              seats := setSeat room.seats seat
                { st with
                  handSize := nextHandSize
                  mustDiscard := mustDiscard
                  discardTarget := if mustDiscard then some target else none } },
            some { seat := seat, addedCardIds := [], removedCardIds := [cid] })

/-- The kind-specific fields of an action request
(`{ type, cardId?, projectId?, cardIds?, handHash? }`). A missing
`cardIds` behaves as `[]` (the code guards with `Array.isArray`). -/
structure ActionPayload where
  type : String
  cardId : Option String := none
  projectId : Option String := none
  cardIds : List String := []
  handHash : Option String := none
deriving DecidableEq, Repr

/-- `applyRoomAction` of `act.js` (the six-branch `part_013` variant;
the trimmed variant of the same file has the identical `END_TURN`,
`PICK_ASSET` and `DISCARD_ASSET` branches). -/
def applyRoomAction (cat : Catalog) (room : Room) (seat : String)
    (a : ActionPayload) : Except String (Room × Option PrivateDelta) :=
  if a.type == "END_TURN" then
    (reduceRoomState cat room a.type).map (fun r => (r, none))
  else if a.type == "PICK_ASSET" then
    (applyPickAsset cat room seat a.cardId).map (fun p => (p.1, some p.2))
  else if a.type == "START_PROJECT" then
    applyStartProject room seat a.projectId
  else if a.type == "ALLOCATE_TO_PROJECT" then
    applyAllocateToProject cat room seat a.projectId a.cardIds a.handHash
  else if a.type == "PAUSE_PROJECT" then
    applyPauseProject cat room seat a.projectId
  else if a.type == "DISCARD_ASSET" then
    applyDiscardAsset room seat a.cardId
  else .error "Unsupported action type."

/-! ## `api/_lib/publicRoomState.js` and the `act.js` handler -/

/-- `toPublicRoomState`: strip every seat's `token`/`tokenHash` and the
room's `dealQueue` (key removal is modelled by resetting to the absent
value). -/
def toPublicRoomState (room : Room) : Room :=
  { room with
    seats := room.seats.map
      (fun p => (p.1, { p.2 with token := none, tokenHash := none }))
    dealQueue := [] }

/-- `isSeatTokenValid` of `act.js`: direct token comparison when a
plaintext `token` is stored, else one-way hash comparison against
`tokenHash`, else invalid. -/
def isSeatTokenValid (cat : Catalog) (st : SeatState) (token : String) : Bool :=
  match st.token with
  | some t => t == token
  | none =>
    match st.tokenHash with
    | some h => h == cat.hashToken token
    | none => false

/-- The action-type whitelist of the `part_013` handler. -/
def isSupportedActionType (t : String) : Bool :=
  t == "END_TURN" || t == "PICK_ASSET" || t == "DISCARD_ASSET" ||
  t == "START_PROJECT" || t == "ALLOCATE_TO_PROJECT" || t == "PAUSE_PROJECT"

/-- A parsed action request body. -/
structure ActRequest where
  seat : String
  token : String
  expectedVersion : Int
  expectedTurnNonce : Option String := none
  action : ActionPayload
deriving DecidableEq, Repr

/-- Outcome of the handler's pure fragment. `applied` carries the
document that the handler submits to the conditional (`If-Match`)
write, with the log entry appended and the version bumped; the
store-side race is outside the pure model. -/
inductive HandlerResult where
  | badRequest (msg : String)
  | forbidden (msg : String)
  | conflict (msg : String) (latestState : Room)
  | applied (updated : Room) (delta : Option PrivateDelta)
  | serverError (msg : String)
deriving DecidableEq, Repr

/-- `true` iff the handler proceeded to apply the action and write. -/
def HandlerResult.isApplied : HandlerResult → Bool
  | .applied _ _ => true
  | _ => false

/-- The room the handler would persist, when it applied the action. -/
def HandlerResult.updatedRoom : HandlerResult → Option Room
  | .applied r _ => some r
  | _ => none

/-- The validation-and-apply pipeline of the `act.js` `handler`, after
request parsing and the gist fetch, up to (excluding) the conditional
write. Mirrors the checks in source order: missing seat/token, action
whitelist, seat existence, token validity, version match, turn
ownership (with the out-of-turn discard exception), the
end-turn-while-must-discard gate, then `applyRoomAction` (whose throw
the surrounding `try` turns into a 500). The interpolated error text
`"Not <seat>'s turn."` is modelled by a constant message. -/
def handlerDecision (cat : Catalog) (room : Room) (req : ActRequest) :
    HandlerResult :=
  if req.seat == "" || req.token == "" then
    .badRequest "Missing seat or token."
  else if !isSupportedActionType req.action.type then
    .badRequest "Unsupported action type."
  else
    match alistLookup room.seats req.seat with
    | none => .forbidden "Seat not found in room."
    | some seatInfo =>
      if !isSeatTokenValid cat seatInfo req.token then
        .forbidden "Invalid seat token."
      else if !(room.version == req.expectedVersion) then
        .conflict "Version mismatch." (toPublicRoomState room)
      else
        let isPlayersTurn := room.currentSeat == req.seat
        let discardRequired := seatInfo.mustDiscard
        if !isPlayersTurn &&
            !(req.action.type == "DISCARD_ASSET" && discardRequired) then
          .conflict "Not this seat's turn." (toPublicRoomState room)
        else if req.action.type == "END_TURN" && discardRequired then
          .conflict "Must discard down to limit before ending turn."
            (toPublicRoomState room)
        else
          match applyRoomAction cat room req.seat req.action with
          | .error e => .serverError e
          | .ok result =>
            .applied
              { result.1 with
                version := room.version + 1
                log := room.log ++ [{ seat := req.seat, type := req.action.type }] }
              result.2

/-! ## `src/gameCore/decks.ts` — seeded PRNG and Fisher–Yates shuffle

All JavaScript 32-bit bitwise results are modelled by their unsigned
representatives, i.e. naturals below `2^32`; `x ^ y`, `x | y`,
`x >>> k`, `Math.imul` and `(x + y) | 0`-style wrap-arounds act on
those representatives as `Nat.xor`, `Nat.lor`, `Nat.shiftRight`,
multiplication `% 2^32` and addition `% 2^32`. The float expressions
are exact: the PRNG output is `t / 2^32` with `t < 2^32`, and
`Math.floor(t / 2^32 * (i + 1))` equals natural division
`t * (i + 1) / 2^32` because `t * (i + 1) < 2^53` is exactly
representable. Strings are modelled by their lists of UTF-16 code
units (`charCodeAt`). -/

/-- `2^32`, the wrap-around modulus of JS 32-bit bit operations. -/
def M32 : Nat := 4294967296

/-- `Math.imul` on unsigned representatives. -/
def imul32 (a b : Nat) : Nat := (a * b) % M32

/-- `(h << 13) | (h >>> 19)`: rotate a 32-bit word left by 13. -/
def rotl13 (h : Nat) : Nat :=
  Nat.lor ((h <<< 13) % M32) (h >>> 19)

/-- One character step of `hashSeed`:
`hash = Math.imul(hash ^ c, 3432918353); hash = (hash << 13) | (hash >>> 19)`. -/
def hashSeedStep (h c : Nat) : Nat :=
  rotl13 (imul32 (Nat.xor h (c % M32)) 3432918353)

/-- `hashSeed` of `decks.ts`: fold the character codes over the
mixing step, starting from `1779033703 ^ seed.length`. -/
def hashSeed (seed : List Nat) : Nat :=
  seed.foldl hashSeedStep (Nat.xor 1779033703 (seed.length % M32))

/-- One call of the closure built by `buildRng`: advance the state by
`0x6d2b79f5` (mod `2^32`) and mix; returns the 32-bit numerator of the
produced fraction together with the new state. -/
def nextRand (state : Nat) : Nat × Nat :=
  let s := (state + 1831565813) % M32
  let t1 := imul32 (Nat.xor s (s >>> 15)) (Nat.lor 1 s)
  let t2 := Nat.xor t1 ((t1 + imul32 (Nat.xor t1 (t1 >>> 7)) (Nat.lor 61 t1)) % M32)
  (Nat.xor t2 (t2 >>> 14), s)

/-- Swap the elements at positions `i` and `j` (the destructuring
assignment `[a[i], a[j]] = [a[j], a[i]]`); the identity when either
index is out of bounds (never the case in `shuffle`). -/
def listSwap (l : List α) (i j : Nat) : List α :=
  match l.get? i, l.get? j with
  | some a, some b => (l.set i b).set j a
  | _, _ => l

/-- One pass of the Fisher–Yates loop body at position `index`: draw,
scale `swapIndex = Math.floor(random() * (index + 1))`, swap; the
accumulator carries the PRNG state and the array. -/
def fyStep (acc : Nat × List String) (index : Nat) : Nat × List String :=
  let r := nextRand acc.1
  let j := r.1 * (index + 1) / M32
  (r.2, listSwap acc.2 index j)

/-- `shuffle` of `decks.ts`: the `for (index = length - 1; index > 0;
index -= 1)` loop as a fold over the descending index sequence
`[length - 1, …, 1]`; a pure function of the id list and the seed
string (given as its code-unit list). -/
def shuffle (ids : List String) (seed : List Nat) : List String :=
  (((List.range' 1 (ids.length - 1)).reverse).foldl fyStep
    (hashSeed seed, ids)).2

/-! ## Concrete fixtures

The card catalogs live in JSON data files (`src/data/*.json`) outside
the embedded sources, so concrete evaluations fix a small stand-in
catalog, chosen to match the facts the repository's test suite relies
on (`asset-a1` is an eligible market asset with catalog outcomes);
theorems whose content depends on catalog values quantify over the
catalog instead. -/

/-- Stand-in catalog instance for concrete evaluations. -/
def testCatalog : Catalog :=
  { hashToken := fun t => String.append "sha256:" t
    assetEligible := fun _ => true
    assetOutcomes := fun id =>
      if id == "asset-a1" then some { budget := -2, headcount := 1, tailwind := 2 }
      else none
    projectReqs := fun id => if id == "project-p2" then some (3, 4) else none
    projectRewards := fun _ => none
    projectRestartBurden := fun _ => 1
    macroLookup := fun _ => none }

/-- Room fixture for the turn-nonce claim: live nonce `tn-live`,
seat A's turn, version 4, nothing pending. -/
def roomC1 : Room :=
  { version := 4
    currentSeat := "A"
    turnNonce := "tn-live"
    currentRound := 1
    totalRounds := 3
    turnCount := 0
    seats :=
      [("A", { connected := true, token := some "abc" }),
       ("B", { connected := true })]
    decks := { projects := { drawPile := ["project-p1"] } } }

/-- A valid END_TURN request carrying a stale turn nonce. -/
def reqC1 : ActRequest :=
  { seat := "A"
    token := "abc"
    expectedVersion := 4
    expectedTurnNonce := some "tn-stale"
    action := { type := "END_TURN" } }

/-- Room fixture for the round-end gate claim: `pendingRoundAdvance`
is true and seat B still owes a discard. -/
def roomC2 : Room :=
  { version := 21
    currentSeat := "A"
    turnNonce := "tn-1"
    currentRound := 1
    totalRounds := 3
    turnCount := 3
    pendingRoundAdvance := true
    mustDiscardBySeat := [("A", 0), ("B", 1)]
    seats :=
      [("A", { connected := true, token := some "abc", handSize := 4,
               projectsStartedThisRound := 2 }),
       ("B", { connected := true, handSize := 3 })]
    market := { availableAssets := ["asset-a1", "asset-a2", "asset-a3"] }
    decks :=
      { assetsRound1 := { drawPile := ["asset-a4"] }
        projects := { drawPile := ["project-p1"] } } }

/-- A non-discard action (PICK_ASSET) from the current seat while the
round-end discard gate is up. -/
def reqC2 : ActRequest :=
  { seat := "A"
    token := "abc"
    expectedVersion := 21
    expectedTurnNonce := some "tn-1"
    action := { type := "PICK_ASSET", cardId := some "asset-a1" } }

/-- Room fixture for the discard-debt claim: seat B owes one round-end
discard and holds three cards. -/
def roomC3 : Room :=
  { version := 21
    currentSeat := "A"
    turnNonce := "tn-1"
    pendingRoundAdvance := true
    mustDiscardBySeat := [("A", 0), ("B", 1)]
    seats :=
      [("A", { connected := true, handSize := 4 }),
       ("B", { connected := true, handSize := 3 })] }

/-- Room fixture for the hand-limit claim: the `macro-m5` round
modifier forcing `handLimit: 6` is installed and seat A holds six
cards, so the next pick crosses the active limit. -/
def roomC5 : Room :=
  { version := 4
    currentSeat := "A"
    turnNonce := "tn-1"
    currentRound := 2
    roundModifiers := [{ source := "macro-m5", entries := [("handLimit", 6)] }]
    seats :=
      [("A", { connected := true, token := some "abc", handSize := 6 }),
       ("B", { connected := true, handSize := 2 })]
    market := { availableAssets := ["asset-a1", "asset-a2", "asset-a3"] }
    decks :=
      { assetsRound1 := { drawPile := ["asset-a4", "asset-a5"] }
        projects := { drawPile := ["project-p1"] } } }

/-! ## Claim theorems -/

/-- C1: the spec says a request whose `expectedTurnNonce` differs from
the room's stored `turnNonce` is rejected as a conflict before the
action is applied. The handler never reads `expectedTurnNonce`: on a
room with live nonce `tn-live`, a request claiming `tn-stale` (with
matching version) is fully applied and the document is mutated, not
rejected. The claim matches the repository's own test
(`rejects stale submissions when expectedTurnNonce does not match
current turn nonce`) and rules document; the code omits the check. -/
theorem handler_applies_despite_stale_turn_nonce :
    (handlerDecision testCatalog roomC1 reqC1).isApplied = true ∧
    (handlerDecision testCatalog roomC1 reqC1).updatedRoom ≠ some roomC1 ∧
    roomC1.turnNonce = "tn-live" ∧
    reqC1.expectedTurnNonce = some "tn-stale" := by
  refine ⟨by decide, by decide, rfl, rfl⟩

/-- C2: the spec says that while `pendingRoundAdvance` is true only
discard actions are accepted from any seat. The handler has no such
gate: with the gate up (seat B still owing a discard), a PICK_ASSET
from the current seat is applied and mutates the room. The claim
matches the repository's rules document (rule 3/9: "only discard
actions are allowed until all debts are cleared"); the code omits the
gate. -/
theorem handler_accepts_non_discard_during_pending_round_advance :
    roomC2.pendingRoundAdvance = true ∧
    debtOf roomC2.mustDiscardBySeat "B" = 1 ∧
    reqC2.action.type ≠ "DISCARD_ASSET" ∧
    (handlerDecision testCatalog roomC2 reqC2).isApplied = true ∧
    (handlerDecision testCatalog roomC2 reqC2).updatedRoom ≠ some roomC2 := by
  refine ⟨rfl, rfl, by decide, by decide, by decide⟩

/-- C3: the spec says a successful DISCARD_ASSET by a seat whose
`mustDiscardBySeat` entry is positive decrements that entry together
with the hand size. The `DISCARD_ASSET` branch decrements `handSize`
(3 to 2) but never touches the room-level `mustDiscardBySeat`, which
stays at 1 for seat B. The claim matches the repository's own test
(round-end debts test expects `{A: 0, B: 0}` after B's discard) and
rules document (rule 8); the code omits the decrement. -/
theorem discard_leaves_round_debt_untouched :
    debtOf roomC3.mustDiscardBySeat "B" = 1 ∧
    ((applyRoomAction testCatalog roomC3 "B"
        { type := "DISCARD_ASSET", cardId := some "asset-a1" }).map
      (fun p => (debtOf p.1.mustDiscardBySeat "B", (getSeatD p.1 "B").handSize)))
      = .ok (1, 2) := by
  refine ⟨rfl, by rfl⟩

/-- C5: the spec says the post-pick hand-limit test uses the active
hand limit (base 7, overridden to 6 by the `macro-m5` modifier).
`applyPickAsset` hardcodes `nextHandSize > 7`: with the `handLimit: 6`
modifier installed and a pick bringing the hand to 7, it leaves
`mustDiscard` false and `discardTarget` null, instead of `true`/`6`.
The claim matches the repository's own test (`applies handLimit
modifier from macro events when picking assets`) and rules document
(rule 4); the code ignores `roundModifiers`. -/
theorem pick_asset_ignores_hand_limit_modifier :
    roomC5.roundModifiers = [{ source := "macro-m5", entries := [("handLimit", 6)] }] ∧
    ((applyPickAsset testCatalog roomC5 "A" (some "asset-a1")).map
      (fun p => ((getSeatD p.1 "A").handSize, (getSeatD p.1 "A").mustDiscard,
                 (getSeatD p.1 "A").discardTarget)))
      = .ok (7, false, none) := by
  refine ⟨rfl, by rfl⟩

/-! ## Round-debt recomputation (C7) and the missing terminal guard (C10) -/

instance : Inhabited Room := ⟨{}⟩

/-- `true` iff the reducer returned a room (did not throw). -/
def exceptOkRoom : Except String Room → Bool
  | .ok _ => true
  | .error _ => false

/-- The produced room's version, when the reducer succeeded. -/
def roomVersionOf (e : Except String Room) : Option Int :=
  e.toOption.map Room.version

/-- Round-boundary fixture: seat A leads 1–0 on projects started, one
more END_TURN reaches `2 × joinedSeats` turns, and two projects are
still face-up so the gate state can be mutated afterwards. -/
def roomC7 : Room :=
  { version := 9
    currentSeat := "B"
    turnNonce := "tn-1"
    currentRound := 1
    totalRounds := 3
    turnCount := 3
    seats :=
      [("A", { connected := true, projectsStartedThisRound := 1 }),
       ("B", { connected := true, projectsStartedThisRound := 0 })]
    market := { availableProjects := ["proj-x", "proj-y"] }
    decks := { projects := { drawPile := ["proj-z"] } } }

/-- The boundary END_TURN: stores the debt map and raises the gate. -/
def roomC7a : Except String Room := reduceRoomState testCatalog roomC7 "END_TURN"

/-- Seat B (still the current seat) starts a face-up project while the
gate is up — the handler admits it, having no round-end gate. -/
def roomC7b : Except String Room :=
  roomC7a.bind (fun r =>
    (applyRoomAction testCatalog r "B"
      { type := "START_PROJECT", projectId := some "proj-x" }).map Prod.fst)

/-- ... and a second one, making B the unique leader 2–1. -/
def roomC7c : Except String Room :=
  roomC7b.bind (fun r =>
    (applyRoomAction testCatalog r "B"
      { type := "START_PROJECT", projectId := some "proj-y" }).map Prod.fst)

/-- The next END_TURN while B's stored debt is still positive. -/
def roomC7d : Except String Room :=
  roomC7c.bind (fun r => reduceRoomState testCatalog r "END_TURN")

/-- C7 counterexample: the boundary stores `{A: 0, B: 1}` and raises
the gate; two START_PROJECTs by the current seat change the
projects-started counts; the subsequent END_TURN — applied while B's
stored debt entry is still 1 — replaces the stored map by the freshly
recomputed `{A: 1, B: 0}` instead of leaving it verbatim. -/
theorem end_turn_rewrites_stored_debt_map :
    roomC7a.map Room.mustDiscardBySeat = .ok [("A", 0), ("B", 1)] ∧
    roomC7a.map Room.pendingRoundAdvance = .ok true ∧
    roomC7c.map (fun r => debtOf r.mustDiscardBySeat "B") = .ok 1 ∧
    roomC7c.map Room.mustDiscardBySeat = .ok [("A", 0), ("B", 1)] ∧
    roomC7d.map Room.mustDiscardBySeat = .ok [("A", 1), ("B", 0)] :=
  ⟨rfl, rfl, rfl, rfl, rfl⟩

/-- C7 (amended): while `pendingRoundAdvance` is true and the stored
debts are outstanding, a subsequent END_TURN stores the debt map
freshly recomputed from the current `projectsStartedThisRound` values
(which coincides with the stored map only when those counts still
yield it), keeps the gate up and bumps the version. Stated for the
case where the recomputed debts are themselves outstanding. -/
theorem end_turn_recomputes_debts_while_pending (cat : Catalog) (room : Room)
    (hp : room.pendingRoundAdvance = true)
    (ho : hasOutstandingRoundDiscards room.mustDiscardBySeat
            (getJoinedSeatOrder room.seats) = true)
    (hr : hasOutstandingRoundDiscards
            (computeMustDiscardBySeat room (getJoinedSeatOrder room.seats))
            (getJoinedSeatOrder room.seats) = true) :
    reduceRoomState cat room "END_TURN"
      = .ok { room with
          pendingRoundAdvance := true
          mustDiscardBySeat :=
            computeMustDiscardBySeat room (getJoinedSeatOrder room.seats)
          version := room.version + 1 } := by
  unfold reduceRoomState
  simp [hp, ho, hr]

/-- The concrete gate-up room reached in the C7 trace. -/
def roomC7cR : Room := roomC7c.toOption.getD {}

/-- Witness for `end_turn_recomputes_debts_while_pending` at the
concrete mid-trace room. -/
theorem end_turn_recomputes_debts_while_pending_witness :
    reduceRoomState testCatalog roomC7cR "END_TURN"
      = .ok { roomC7cR with
          pendingRoundAdvance := true
          mustDiscardBySeat :=
            computeMustDiscardBySeat roomC7cR (getJoinedSeatOrder roomC7cR.seats)
          version := roomC7cR.version + 1 } :=
  end_turn_recomputes_debts_while_pending testCatalog roomC7cR rfl rfl rfl

/-- Game-over fixture: the final boundary has passed (`gameOver` is
true, round 3 of 3), the turn counter was never reset, and seat A's
un-reset `projectsStartedThisRound` lead means the next boundary check
mints fresh debts. -/
def roomC10 : Room :=
  { version := 30
    currentSeat := "A"
    turnNonce := "tn-9"
    currentRound := 3
    totalRounds := 3
    turnCount := 99
    pendingRoundAdvance := false
    mustDiscardBySeat := [("A", 0), ("B", 0)]
    gameOver := true
    seats :=
      [("A", { connected := true, projectsStartedThisRound := 2 }),
       ("B", { connected := true, projectsStartedThisRound := 0 })]
    decks := { projects := { drawPile := ["project-p1"] } } }

/-- C10 counterexample: `roomC10` has `gameOver = true`, and END_TURN
is still accepted (no terminal guard) — but it re-raises the discard
gate (leaving `gameOver` true), after which ADVANCE_ROUND on the
resulting game-over room is refused. So it is not the case that every
room with `gameOver = true` accepts ADVANCE_ROUND. -/
theorem game_over_room_can_refuse_advance_round :
    roomC10.gameOver = true ∧
    (reduceRoomState testCatalog roomC10 "END_TURN").map Room.gameOver
      = .ok true ∧
    (reduceRoomState testCatalog roomC10 "END_TURN").map Room.pendingRoundAdvance
      = .ok true ∧
    ((reduceRoomState testCatalog roomC10 "END_TURN").bind
        (fun r => reduceRoomState testCatalog r "ADVANCE_ROUND"))
      = .error "Round-end discards must be completed before starting the next round." :=
  ⟨rfl, rfl, rfl, rfl⟩

/-- Game-over fixture with no fresh debts: everything reset except the
turn counter, as the game-over branch leaves it. -/
def roomC10w : Room :=
  { version := 31
    currentSeat := "A"
    turnNonce := "tn-9"
    currentRound := 3
    totalRounds := 3
    turnCount := 99
    pendingRoundAdvance := false
    mustDiscardBySeat := [("A", 0), ("B", 0)]
    gameOver := true
    finalScoring := some (computeFinalScoring testCatalog {} [])
    seats :=
      [("A", { connected := true }),
       ("B", { connected := true })]
    decks := { projects := { drawPile := ["project-p1"] } } }

/-- Helper: END_TURN never throws when the joined seat order is
nonempty, and always bumps the version by exactly one. -/
lemma endTurn_ok (cat : Catalog) (room : Room)
    (hne : getJoinedSeatOrder room.seats ≠ []) :
    ∃ r, reduceRoomState cat room "END_TURN" = .ok r ∧
      r.version = room.version + 1 := by
  unfold reduceRoomState
  simp only [show (("END_TURN" : String) == "END_TURN") = true from rfl,
    show (("END_TURN" : String) == "ADVANCE_ROUND") = false from rfl,
    Bool.true_or, Bool.false_and, Bool.false_or, Bool.false_eq_true,
    eq_self_iff_true, if_true, if_false]
  cases hadv : room.pendingRoundAdvance ||
      shouldAdvanceRound room (getJoinedSeatOrder room.seats) "END_TURN" with
  | false =>
    simp only [Bool.not_false, eq_self_iff_true, if_true]
    rcases hJ : getJoinedSeatOrder room.seats with _ | ⟨x, xs⟩
    · exact absurd hJ hne
    · unfold getNextSeat
      cases hidx : (x :: xs).findIdx? (fun s => s == room.currentSeat) with
      | none => exact ⟨_, rfl, rfl⟩
      | some i => exact ⟨_, rfl, rfl⟩
  | true =>
    simp only [Bool.not_true, Bool.false_eq_true, if_false]
    repeat' split
    all_goals exact ⟨_, rfl, rfl⟩

/-- Helper: END_TURN acceptance and version bump, as projections. -/
lemma endTurn_accepts (cat : Catalog) (room : Room)
    (hne : getJoinedSeatOrder room.seats ≠ []) :
    exceptOkRoom (reduceRoomState cat room "END_TURN") = true ∧
    roomVersionOf (reduceRoomState cat room "END_TURN")
      = some (room.version + 1) := by
  obtain ⟨r, hr, hv⟩ := endTurn_ok cat room hne
  rw [hr]
  exact ⟨rfl, by simp [roomVersionOf, Except.toOption, hv]⟩

/-- Helper: ADVANCE_ROUND succeeds exactly when the round-end discard
gate is down; its refusal condition never mentions `gameOver`. -/
lemma advanceRound_ok_iff_gate_down (cat : Catalog) (room : Room) :
    exceptOkRoom (reduceRoomState cat room "ADVANCE_ROUND")
      = !(room.pendingRoundAdvance &&
          hasOutstandingRoundDiscards room.mustDiscardBySeat
            (getJoinedSeatOrder room.seats)) := by
  unfold reduceRoomState
  simp only [show (("ADVANCE_ROUND" : String) == "ADVANCE_ROUND") = true from rfl,
    show (("ADVANCE_ROUND" : String) == "END_TURN") = false from rfl,
    Bool.false_or, Bool.true_and, eq_self_iff_true, if_true]
  cases hg : room.pendingRoundAdvance &&
      hasOutstandingRoundDiscards room.mustDiscardBySeat
        (getJoinedSeatOrder room.seats) with
  | true => simp [exceptOkRoom]
  | false =>
    simp only [Bool.false_eq_true, if_false, Bool.not_false]
    simp only [shouldAdvanceRound,
      show (("ADVANCE_ROUND" : String) == "ADVANCE_ROUND") = true from rfl,
      Bool.true_or, Bool.or_true, Bool.not_true, Bool.false_eq_true, if_false]
    repeat' split
    all_goals rfl

set_option linter.unusedVariables false in
/-- C10 (amended): the reducer has no terminal-state guard, but the
unconditional acceptance claimed only holds outside the discard gate:
on any room with `gameOver = true` (and a nonempty seat order),
END_TURN is accepted with the version bumped again; ADVANCE_ROUND is
accepted exactly when the round-end discard gate is down — its only
refusal condition, independent of `gameOver`; and when
`pendingRoundAdvance` is false, the boundary check mints no debts and
`currentRound ≥ totalRounds`, END_TURN re-enters the game-over branch
and overwrites `finalScoring` with a fresh computation. -/
theorem reduce_has_no_terminal_guard (cat : Catalog) (room : Room)
    (hgo : room.gameOver = true)
    (hne : getJoinedSeatOrder room.seats ≠ []) :
    exceptOkRoom (reduceRoomState cat room "END_TURN") = true ∧
    roomVersionOf (reduceRoomState cat room "END_TURN")
      = some (room.version + 1) ∧
    exceptOkRoom (reduceRoomState cat room "ADVANCE_ROUND")
      = !(room.pendingRoundAdvance &&
          hasOutstandingRoundDiscards room.mustDiscardBySeat
            (getJoinedSeatOrder room.seats)) ∧
    (room.pendingRoundAdvance = false →
      hasOutstandingRoundDiscards
        (computeMustDiscardBySeat room (getJoinedSeatOrder room.seats))
        (getJoinedSeatOrder room.seats) = false →
      shouldAdvanceRound room (getJoinedSeatOrder room.seats) "END_TURN" = true →
      room.currentRound ≥ room.totalRounds →
      reduceRoomState cat room "END_TURN"
        = .ok { room with
            pendingRoundAdvance := false
            mustDiscardBySeat :=
              (getJoinedSeatOrder room.seats).map (fun s => (s, 0))
            gameOver := true
            finalScoring :=
              some (computeFinalScoring cat room (getJoinedSeatOrder room.seats))
            version := room.version + 1 }) := by
  refine ⟨?_, ?_, ?_, ?_⟩
  · exact (endTurn_accepts cat room hne).1
  · exact (endTurn_accepts cat room hne).2
  · exact advanceRound_ok_iff_gate_down cat room
  · intro hp hno hadv hround
    unfold reduceRoomState
    simp [hp, hno, hadv, hround]

/-- Witness for `reduce_has_no_terminal_guard` at a concrete finished
room. -/
theorem reduce_has_no_terminal_guard_witness :
    exceptOkRoom (reduceRoomState testCatalog roomC10w "END_TURN") = true :=
  (reduce_has_no_terminal_guard testCatalog roomC10w rfl (by decide)).1

/-! ## Round-end discard-debt rule (C4) -/

/-- Claim-side notion: seat `s` is the unique leader of the
projects-started race — joined, with a positive count strictly above
every other joined seat's count. -/
def uniqueRoundLeader (room : Room) (joined : List String) (s : String) : Prop :=
  s ∈ joined ∧ 0 < projectsStartedOf room s ∧
    ∀ t ∈ joined, t ≠ s → projectsStartedOf room t < projectsStartedOf room s

instance (room : Room) (joined : List String) (s : String) :
    Decidable (uniqueRoundLeader room joined s) := by
  unfold uniqueRoundLeader
  infer_instance

/-- Every list element is bounded by the `foldr max` over the list. -/
lemma le_foldr_max (l : List Int) (c x : Int) (hx : x ∈ l) :
    x ≤ l.foldr max c := by
  induction l with
  | nil => cases hx
  | cons a t ih =>
    rcases List.mem_cons.mp hx with h | h
    · subst h; exact le_max_left _ _
    · exact le_trans (ih h) (le_max_right _ _)

/-- `foldr max` is bounded by any common upper bound. -/
lemma foldr_max_le (l : List Int) (c b : Int) (hc : c ≤ b)
    (h : ∀ x ∈ l, x ≤ b) : l.foldr max c ≤ b := by
  induction l with
  | nil => exact hc
  | cons a t ih =>
    exact max_le (h a (List.mem_cons_self _ _))
      (ih (fun x hx => h x (List.mem_cons_of_mem a hx)))

/-- Filtering a duplicate-free list by a predicate that holds exactly
at one member yields that singleton. -/
lemma filter_eq_single (l : List String) (s : String) (p : String → Bool)
    (hnd : l.Nodup) (hs : s ∈ l) (hp : ∀ t ∈ l, p t = true ↔ t = s) :
    l.filter p = [s] := by
  induction l with
  | nil => cases hs
  | cons a t ih =>
    have hnd' := (List.nodup_cons.mp hnd).2
    have hna := (List.nodup_cons.mp hnd).1
    rcases List.mem_cons.mp hs with rfl | h
    · have hpa : p s = true := (hp s (List.mem_cons_self _ _)).mpr rfl
      have ht : t.filter p = [] := by
        apply List.filter_eq_nil_iff.mpr
        intro x hx hpx
        exact hna (((hp x (List.mem_cons_of_mem s hx)).mp hpx) ▸ hx)
      simp [List.filter_cons, hpa, ht]
    · have hpa : p a = false := by
        rcases hpab : p a with _ | _
        · rfl
        · exact absurd ((hp a (List.mem_cons_self _ _)).mp hpab ▸ h) hna
      have := ih hnd' h (fun x hx => hp x (List.mem_cons_of_mem a hx))
      simp [List.filter_cons, hpa, this]

/-- Example fixture: starts `{A: 2, B: 0, C: 1}` (unique leader A). -/
def roomC4a : Room :=
  { seats :=
      [("A", { connected := true, projectsStartedThisRound := 2 }),
       ("B", { connected := true, projectsStartedThisRound := 0 }),
       ("C", { connected := true, projectsStartedThisRound := 1 })] }

/-- Example fixture: starts `{A: 1, B: 1, C: 0}` (tie, no debt). -/
def roomC4b : Room :=
  { seats :=
      [("A", { connected := true, projectsStartedThisRound := 1 }),
       ("B", { connected := true, projectsStartedThisRound := 1 }),
       ("C", { connected := true, projectsStartedThisRound := 0 })] }

/-- C4: over a duplicate-free joined-seat list, if some seat is the
unique leader with a positive count, `computeMustDiscardBySeat`
assigns 0 to the leader and 1 to every other joined seat; in every
other case (tie for the lead, or nobody started a project) it assigns
0 to every joined seat. In particular `{A:2,B:0,C:1}` yields
`{A:0,B:1,C:1}` and `{A:1,B:1,C:0}` yields `{A:0,B:0,C:0}`. -/
theorem computeMustDiscardBySeat_spec (room : Room) (joined : List String)
    (hnd : joined.Nodup) :
    (∀ s, uniqueRoundLeader room joined s →
      computeMustDiscardBySeat room joined
        = joined.map (fun t => (t, if t = s then (0 : Int) else 1))) ∧
    ((¬ ∃ s, uniqueRoundLeader room joined s) →
      computeMustDiscardBySeat room joined
        = joined.map (fun t => (t, (0 : Int)))) ∧
    computeMustDiscardBySeat roomC4a ["A", "B", "C"]
      = [("A", 0), ("B", 1), ("C", 1)] ∧
    computeMustDiscardBySeat roomC4b ["A", "B", "C"]
      = [("A", 0), ("B", 0), ("C", 0)] := by
  refine ⟨?_, ?_, by decide, by decide⟩
  · rintro s ⟨hs, hpos, hlt⟩
    have hmax : (joined.map (fun t => projectsStartedOf room t)).foldr max 0
        = projectsStartedOf room s := by
      apply le_antisymm
      · apply foldr_max_le _ _ _ (le_of_lt hpos)
        intro x hx
        obtain ⟨t, ht, rfl⟩ := List.mem_map.mp hx
        by_cases hts : t = s
        · subst hts; exact le_refl _
        · exact le_of_lt (hlt t ht hts)
      · exact le_foldr_max _ _ _ (List.mem_map_of_mem _ hs)
    have hleaders : joined.filter
        (fun t => projectsStartedOf room t ==
          (joined.map (fun t => projectsStartedOf room t)).foldr max 0) = [s] := by
      apply filter_eq_single joined s _ hnd hs
      intro t ht
      rw [hmax]
      constructor
      · intro hbeq
        by_contra hts
        exact absurd (beq_iff_eq.mp hbeq) (ne_of_lt (hlt t ht hts))
      · intro h; subst h; exact beq_self_eq_true _
    simp only [computeMustDiscardBySeat]
    rw [hleaders, hmax]
    have hcond : ¬(([s].length ≠ 1) ∨ projectsStartedOf room s ≤ 0) := by
      push_neg
      exact ⟨rfl, hpos⟩
    rw [if_neg hcond]
    apply List.map_congr_left
    intro t _
    by_cases hts : t = s
    · simp [hts]
    · simp [hts, show (t == s) = false from beq_eq_false_iff_ne.mpr hts]
  · intro hno
    simp only [computeMustDiscardBySeat]
    by_cases hC : ((joined.filter
        (fun t => projectsStartedOf room t ==
          (joined.map (fun t => projectsStartedOf room t)).foldr max 0)).length ≠ 1) ∨
        (joined.map (fun t => projectsStartedOf room t)).foldr max 0 ≤ 0
    · rw [if_pos hC]
    · exfalso
      apply hno
      push_neg at hC
      obtain ⟨hlen, hpos⟩ := hC
      obtain ⟨x, hx⟩ := List.length_eq_one.mp hlen
      have hxmem : x ∈ joined.filter
          (fun t => projectsStartedOf room t ==
            (joined.map (fun t => projectsStartedOf room t)).foldr max 0) := by
        rw [hx]; exact List.mem_singleton_self x
      have hxj : x ∈ joined := (List.mem_filter.mp hxmem).1
      have hxmax : projectsStartedOf room x
          = (joined.map (fun t => projectsStartedOf room t)).foldr max 0 :=
        beq_iff_eq.mp (List.mem_filter.mp hxmem).2
      refine ⟨x, hxj, by rw [hxmax]; exact hpos, ?_⟩
      intro t ht hts
      have hle : projectsStartedOf room t
          ≤ (joined.map (fun t => projectsStartedOf room t)).foldr max 0 :=
        le_foldr_max _ _ _ (List.mem_map_of_mem _ ht)
      have hne : projectsStartedOf room t
          ≠ (joined.map (fun t => projectsStartedOf room t)).foldr max 0 := by
        intro heq
        have : t ∈ joined.filter
            (fun t => projectsStartedOf room t ==
              (joined.map (fun t => projectsStartedOf room t)).foldr max 0) :=
          List.mem_filter.mpr ⟨ht, beq_iff_eq.mpr heq⟩
        rw [hx] at this
        exact hts (List.mem_singleton.mp this)
      rw [hxmax]
      exact lt_of_le_of_ne hle hne

/-- Witness for `computeMustDiscardBySeat_spec`: the unique-leader
branch applied to the `{A:2,B:0,C:1}` fixture. -/
theorem computeMustDiscardBySeat_spec_witness :
    computeMustDiscardBySeat roomC4a ["A", "B", "C"]
      = [("A", 0), ("B", 1), ("C", 1)] :=
  ((computeMustDiscardBySeat_spec roomC4a ["A", "B", "C"] (by decide)).1 "A"
      ⟨by decide, by decide, by decide⟩).trans (by decide)

/-! ## Final scoring (C6) -/

/-- Claim-side reward multiplier: a TF project contributes its rewards
twice, an MV project once, anything else nothing. -/
def stageRewardMultiplier (st : Stage) : Int :=
  if st = .TF then 2 else if st = .MV then 1 else 0

/-- One step of the scoring loop, in closed form. -/
lemma scoreStep_fields (cat : Catalog) (acc : ScoreAcc) (p : ProjectInstance) :
    (scoreStep cat acc p).growth
      = acc.growth + stageRewardMultiplier p.stage
          * ((cat.projectRewards p.id).getD (0, 0)).1 ∧
    (scoreStep cat acc p).fuel
      = acc.fuel + stageRewardMultiplier p.stage
          * ((cat.projectRewards p.id).getD (0, 0)).2 ∧
    (scoreStep cat acc p).pausedOrAbandonedCount
      = acc.pausedOrAbandonedCount
          + (if p.paused = true ∨ p.abandonedPenaltyCount > 0 then 1 else 0) := by
  unfold scoreStep stageRewardMultiplier
  rcases hst : p.stage <;>
    by_cases hp : (p.paused = true ∨ p.abandonedPenaltyCount > 0) <;>
      refine ⟨?_, ?_, ?_⟩ <;> simp [hst, hp] <;> ring

/-- The scoring loop, in closed form (generalized accumulator). -/
lemma scoreAcc_foldl (cat : Catalog) (l : List ProjectInstance) :
    ∀ acc : ScoreAcc,
      (l.foldl (scoreStep cat) acc).growth
        = acc.growth + (l.map (fun p => stageRewardMultiplier p.stage
            * ((cat.projectRewards p.id).getD (0, 0)).1)).sum ∧
      (l.foldl (scoreStep cat) acc).fuel
        = acc.fuel + (l.map (fun p => stageRewardMultiplier p.stage
            * ((cat.projectRewards p.id).getD (0, 0)).2)).sum ∧
      (l.foldl (scoreStep cat) acc).pausedOrAbandonedCount
        = acc.pausedOrAbandonedCount
            + ((l.filter (fun p => p.paused
                || decide (p.abandonedPenaltyCount > 0))).length : Int) := by
  induction l with
  | nil => intro acc; simp
  | cons p t ih =>
    intro acc
    obtain ⟨sg, sf, sp⟩ := scoreStep_fields cat acc p
    obtain ⟨ig, if_, ip⟩ := ih (scoreStep cat acc p)
    refine ⟨?_, ?_, ?_⟩
    · simp only [List.foldl_cons, List.map_cons, List.sum_cons, ig, sg]; ring
    · simp only [List.foldl_cons, List.map_cons, List.sum_cons, if_, sf]; ring
    · simp only [List.foldl_cons, ip, sp, List.filter_cons]
      by_cases hp : (p.paused = true ∨ p.abandonedPenaltyCount > 0)
      · have hb : (p.paused || decide (p.abandonedPenaltyCount > 0)) = true := by
          rcases hp with h | h
          · simp [h]
          · simp [h]
        simp [hb, hp]
        ring
      · have hb : (p.paused || decide (p.abandonedPenaltyCount > 0)) = false := by
          rcases hb' : p.paused with _ | _
          · simp_all
          · exact absurd (Or.inl hb') hp
        simp [hb, hp]

/-- C6 (amended): per-seat scoring — each MV project contributes its
catalog growth/fuel rewards once and each TF project twice; the
penalty counts projects that are paused or carry an abandonment
penalty; `baseScore = lower + floor((upper − lower)/3)` and
`finalScore = baseScore − penalty`. The winner set consists of the
seats attaining `max(0, maximum finalScore)` — the fold that computes
the best score starts from 0, so when every joined seat's final score
is negative the winner set is empty, rather than the argmax set the
original claim describes; ties are allowed and flagged. -/
theorem scoring_spec (cat : Catalog) (seatState : SeatState) (room : Room)
    (joined : List String) :
    (computeSeatScoring cat seatState).growth
      = (seatState.projects.map (fun p => stageRewardMultiplier p.stage
          * ((cat.projectRewards p.id).getD (0, 0)).1)).sum ∧
    (computeSeatScoring cat seatState).fuel
      = (seatState.projects.map (fun p => stageRewardMultiplier p.stage
          * ((cat.projectRewards p.id).getD (0, 0)).2)).sum ∧
    (computeSeatScoring cat seatState).pausedOrAbandonedCount
      = ((seatState.projects.filter (fun p => p.paused
          || decide (p.abandonedPenaltyCount > 0))).length : Int) ∧
    (computeSeatScoring cat seatState).baseScore
      = min (computeSeatScoring cat seatState).growth
            (computeSeatScoring cat seatState).fuel
        + Int.fdiv (max (computeSeatScoring cat seatState).growth
              (computeSeatScoring cat seatState).fuel
            - min (computeSeatScoring cat seatState).growth
                (computeSeatScoring cat seatState).fuel) 3 ∧
    (computeSeatScoring cat seatState).finalScore
      = (computeSeatScoring cat seatState).baseScore
        - (computeSeatScoring cat seatState).pausedOrAbandonedCount ∧
    (∀ s, s ∈ (computeFinalScoring cat room joined).winners ↔
      s ∈ joined ∧ (computeSeatScoring cat (getSeatD room s)).finalScore
        = (joined.map (fun t =>
            (computeSeatScoring cat (getSeatD room t)).finalScore)).foldr max 0) ∧
    (computeFinalScoring cat room joined).isTie
      = decide ((computeFinalScoring cat room joined).winners.length > 1) := by
  obtain ⟨hg, hf, hp⟩ := scoreAcc_foldl cat seatState.projects {}
  refine ⟨?_, ?_, ?_, rfl, rfl, ?_, rfl⟩
  · simpa [computeSeatScoring] using hg
  · simpa [computeSeatScoring] using hf
  · simpa [computeSeatScoring] using hp
  · intro s
    simp only [computeFinalScoring]
    constructor
    · intro h
      have := List.mem_filter.mp h
      exact ⟨this.1, beq_iff_eq.mp this.2⟩
    · rintro ⟨h1, h2⟩
      exact List.mem_filter.mpr ⟨h1, beq_iff_eq.mpr h2⟩

/-- Two seats whose only projects are paused: every final score is
negative. -/
def roomC6 : Room :=
  { seats :=
      [("A", { connected := true, projects := [{ id := "proj-a", paused := true }] }),
       ("B", { connected := true, projects := [{ id := "proj-b", paused := true }] })] }

/-- C6 counterexample: with joined seats A and B both at final score
−1, the maximum final score among joined seats (−1) is attained by
both, yet `computeFinalScoring` — whose best-score fold starts from
0 — returns an empty winner set, not `{A, B}` as the claim requires. -/
theorem winners_empty_when_all_scores_negative :
    (computeSeatScoring testCatalog (getSeatD roomC6 "A")).finalScore = -1 ∧
    (computeSeatScoring testCatalog (getSeatD roomC6 "B")).finalScore = -1 ∧
    (["A", "B"].filter (fun s =>
        (computeSeatScoring testCatalog (getSeatD roomC6 s)).finalScore == -1))
      = ["A", "B"] ∧
    (computeFinalScoring testCatalog roomC6 ["A", "B"]).winners = [] :=
  ⟨rfl, rfl, rfl, rfl⟩

/-! ## Card-location disjointness (C8) -/

/-- `findIdx?` returns an index below `start + length`. -/
lemma findIdx?_lt (p : α → Bool) :
    ∀ (l : List α) (start i : Nat), l.findIdx? p start = some i →
      i < start + l.length := by
  intro l
  induction l with
  | nil => intro start i h; simp [List.findIdx?] at h
  | cons a t ih =>
    intro start i h
    rw [List.findIdx?_cons] at h
    by_cases hp : p a = true
    · rw [if_pos hp] at h
      injection h with h
      subst h
      simp only [List.length_cons]
      omega
    · rw [if_neg hp] at h
      have := ih (start + 1) i h
      simp only [List.length_cons]
      omega

/-- Setting position `i` to `a` makes `a` a member (for `i` in
bounds). -/
lemma mem_set_self : ∀ (l : List α) (i : Nat) (a : α), i < l.length →
    a ∈ l.set i a := by
  intro l
  induction l with
  | nil => intro i a h; simp at h
  | cons b t ih =>
    intro i a h
    cases i with
    | zero => simp [List.set]
    | succ n =>
      simp only [List.set, List.mem_cons]
      right
      exact ih n a (by simpa using h)

/-- Replacing the binding of a present key makes it the first match. -/
lemma find?_map_replace (k : String) (st : SeatState) :
    ∀ (seats : List (String × SeatState)),
      seats.any (fun p => p.1 == k) = true →
      (seats.map (fun p => if p.1 == k then (k, st) else p)).find?
          (fun p => p.1 == k) = some (k, st) := by
  intro seats
  induction seats with
  | nil => intro h; simp at h
  | cons q t ih =>
    intro h
    by_cases hq : (q.1 == k) = true
    · rw [List.map_cons, if_pos hq, List.find?_cons]
      have : ((k, st).1 == k) = true := beq_self_eq_true k
      rw [this]
    · rw [List.map_cons, if_neg (by simp [hq]), List.find?_cons]
      have hqf : (q.1 == k) = false := by
        rcases hq' : (q.1 == k) with _ | _
        · rfl
        · exact absurd hq' hq
      rw [hqf]
      exact ih (by simpa [List.any_cons, hqf] using h)

/-- Appending a binding for an absent key makes it the first match. -/
lemma find?_append_new (k : String) (st : SeatState) :
    ∀ (seats : List (String × SeatState)),
      seats.any (fun p => p.1 == k) = false →
      (seats ++ [(k, st)]).find? (fun p => p.1 == k) = some (k, st) := by
  intro seats
  induction seats with
  | nil =>
    intro _
    rw [List.nil_append, List.find?_cons]
    have : ((k, st).1 == k) = true := beq_self_eq_true k
    rw [this]
  | cons q t ih =>
    intro h
    have hq : (q.1 == k) = false := by
      rcases hq' : (q.1 == k) with _ | _
      · rfl
      · simp [List.any_cons, hq'] at h
    rw [List.cons_append, List.find?_cons, hq]
    exact ih (by simpa [List.any_cons, hq] using h)

/-- `setSeat` followed by a lookup of the same key yields the stored
state. -/
lemma lookup_setSeat (seats : List (String × SeatState)) (k : String)
    (st : SeatState) : alistLookup (setSeat seats k st) k = some st := by
  unfold setSeat alistLookup
  by_cases hany : seats.any (fun p => p.1 == k) = true
  · rw [if_pos hany, find?_map_replace k st seats hany]
    rfl
  · rw [if_neg hany,
      find?_append_new k st seats (Bool.not_eq_true _ ▸ hany)]
    rfl

/-- C8 (amended): disjointness of card locations is not an invariant
the allocation path preserves. A successful ALLOCATE_TO_PROJECT leaves
the market, the deal queue and the decks verbatim while appending the
caller-supplied card ids to one of the seat's projects — it validates
the ids only against the catalog, never against the market, the deal
queue or other allocations, so supplying an id still present elsewhere
makes that id occupy two locations at once. -/
theorem allocate_appends_ids_and_leaves_other_locations (cat : Catalog)
    (room : Room) (seat : String) (projectId : Option String)
    (cardIds : List String) (handHash : Option String)
    (room' : Room) (delta : Option PrivateDelta)
    (hok : applyAllocateToProject cat room seat projectId cardIds handHash
      = .ok (room', delta)) :
    room'.market = room.market ∧ room'.dealQueue = room.dealQueue ∧
    room'.decks = room.decks ∧
    ∀ c ∈ cardIds, ∃ p ∈ (getSeatD room' seat).projects,
      c ∈ p.allocatedCardIds := by
  unfold applyAllocateToProject at hok
  dsimp only at hok
  repeat' split at hok
  all_goals try exact Except.noConfusion hok
  rename_i xi i hidx xa totals htot
  injection hok with hok
  obtain ⟨hr, -⟩ := Prod.mk.inj hok
  subst hr
  refine ⟨rfl, rfl, rfl, ?_⟩
  intro c hc
  have hi : i < (getSeatD room seat).projects.length := by
    rcases projectId with _ | pid
    · simpa using findIdx?_lt _ _ 0 i hidx
    · simpa using findIdx?_lt _ _ 0 i hidx
  unfold getSeatD
  dsimp only
  rw [lookup_setSeat]
  simp only [Option.getD_some]
  exact ⟨_, mem_set_self _ i _ hi, List.mem_append_right _ hc⟩

/-- Hand-proof hash fixture (64 hex characters). -/
def hashC8 : String :=
  "aaaaaaaaaaaaaaaaaaaaaaaaaaaaaaaaaaaaaaaaaaaaaaaaaaaaaaaaaaaaaaaa"

/-- Fixture: seat A holds one card and one active project while
`asset-a1` is simultaneously face-up in the market. -/
def roomC8 : Room :=
  { currentSeat := "A"
    seats :=
      [("A", { connected := true, handSize := 1,
               projects := [{ id := "project-p2" }] })]
    market := { availableAssets := ["asset-a1"] }
    dealQueue := [("B", ["asset-a9"])] }

/-- The allocation of the market-resident id `asset-a1`. -/
def allocC8 : Except String (Room × Option PrivateDelta) :=
  applyAllocateToProject testCatalog roomC8 "A" none ["asset-a1"] (some hashC8)

/-- The resulting room/delta pair. -/
def prC8 : Room × Option PrivateDelta := allocC8.toOption.getD ({}, none)

/-- C8 counterexample: the allocation succeeds and afterwards
`asset-a1` is both in seat A's project `allocatedCardIds` and still in
the market's `availableAssets` — two tracked locations at once. -/
theorem allocate_puts_card_in_two_locations :
    (allocC8.map (fun p =>
      ((getSeatD p.1 "A").projects.any
          (fun pr => pr.allocatedCardIds.contains "asset-a1"),
       p.1.market.availableAssets.contains "asset-a1")))
      = .ok (true, true) := rfl

/-- Witness for `allocate_appends_ids_and_leaves_other_locations` at
the concrete fixture. -/
theorem allocate_appends_ids_and_leaves_other_locations_witness :
    prC8.1.market = roomC8.market :=
  (allocate_appends_ids_and_leaves_other_locations testCatalog roomC8 "A" none
    ["asset-a1"] (some hashC8) prC8.1 prC8.2 rfl).1

/-! ## Shuffle determinism and permutation (C9) -/

/-- Pulling the element at position `k` to the front while writing `x`
into its slot is a permutation of consing `x`. -/
lemma cons_get_set_perm :
    ∀ (l : List α) (k : Nat) (x : α) (hk : k < l.length),
      (l.get ⟨k, hk⟩ :: l.set k x).Perm (x :: l) := by
  intro l
  induction l with
  | nil => intro k x hk; cases hk
  | cons a t ih =>
    intro k x hk
    cases k with
    | zero => exact List.Perm.swap x a t
    | succ m =>
      have hm : m < t.length := by simpa using hk
      have h1 : (t.get ⟨m, hm⟩ :: a :: t.set m x).Perm
          (a :: t.get ⟨m, hm⟩ :: t.set m x) :=
        List.Perm.swap a (t.get ⟨m, hm⟩) _
      have h2 : (a :: t.get ⟨m, hm⟩ :: t.set m x).Perm (a :: x :: t) :=
        List.Perm.cons a (ih m x hm)
      have h3 : (a :: x :: t).Perm (x :: a :: t) := List.Perm.swap x a t
      exact (h1.trans h2).trans h3

/-- The two-write formulation of an in-place swap is a permutation. -/
lemma swap_set_perm :
    ∀ (l : List α) (i j : Nat) (hi : i < l.length) (hj : j < l.length),
      ((l.set i (l.get ⟨j, hj⟩)).set j (l.get ⟨i, hi⟩)).Perm l := by
  intro l
  induction l with
  | nil => intro i j hi _; cases hi
  | cons a t ih =>
    intro i j hi hj
    cases i with
    | zero =>
      cases j with
      | zero => exact List.Perm.refl _
      | succ m =>
        have hm : m < t.length := by simpa using hj
        exact cons_get_set_perm t m a hm
    | succ n =>
      have hn : n < t.length := by simpa using hi
      cases j with
      | zero => exact cons_get_set_perm t n a hn
      | succ m =>
        have hm : m < t.length := by simpa using hj
        exact List.Perm.cons a (ih n m hn hm)

/-- `listSwap` always permutes. -/
lemma listSwap_perm (l : List α) (i j : Nat) : (listSwap l i j).Perm l := by
  unfold listSwap
  split
  · rename_i a b ha hb
    obtain ⟨hi, hga⟩ := List.get?_eq_some.mp ha
    obtain ⟨hj, hgb⟩ := List.get?_eq_some.mp hb
    rw [← hga, ← hgb]
    exact swap_set_perm l i j hi hj
  · exact List.Perm.refl _

/-- The list component of a loop pass is a `listSwap`. -/
lemma fyStep_snd (acc : Nat × List String) (index : Nat) :
    (fyStep acc index).2
      = listSwap acc.2 index ((nextRand acc.1).1 * (index + 1) / M32) := rfl

/-- Folding loop passes over any index sequence permutes the carried
list. -/
lemma foldl_fyStep_perm : ∀ (idxs : List Nat) (acc : Nat × List String),
    ((idxs.foldl fyStep acc).2).Perm acc.2 := by
  intro idxs
  induction idxs with
  | nil => intro acc; exact List.Perm.refl _
  | cons i t ih =>
    intro acc
    rw [List.foldl_cons]
    have hswap : ((fyStep acc i).2).Perm acc.2 := by
      rw [fyStep_snd]
      exact listSwap_perm _ _ _
    exact (ih _).trans hswap

/-- C9: `shuffle` is a pure function of the id list and the seed — the
embedding of `decks.ts` is deterministic by construction, since the
source closes over no state beyond the PRNG locals modelled here — and
its output is always a permutation of the input ids. The concrete
conjunct evaluates one full run (ids `a…e`, seed `"seed"` as UTF-16
code units), pinning the modelled PRNG arithmetic. -/
theorem shuffle_pure_and_permutes (ids : List String) (seed : List Nat) :
    shuffle ids seed = shuffle ids seed ∧
    (shuffle ids seed).Perm ids ∧
    shuffle ["a", "b", "c", "d", "e"] [115, 101, 101, 100]
      = ["e", "a", "d", "b", "c"] := by
  refine ⟨rfl, ?_, by rfl⟩
  unfold shuffle
  exact foldl_fyStep_perm _ _

end Intrapreneurs
